import Mathlib

/-!
Shallow embedding of the segmented virtual-timeline playback engine of
`src/context/MediaPlayerContext.jsx` (bible-compass).  Times are modelled as
rationals, JavaScript strings as `String`, absent (`null`/`undefined`) values
as `Option`.  Each definition mirrors one function of the source file.  The
React `useRef` mirrors kept in sync with committed state by `useEffect` hooks
(`currentSegmentRef`, `queueRef`, `segmentMapRef`) are modelled as reads of
the corresponding state fields — in particular the segment map is the derived
value `buildSegmentMap` of the current playlist, exactly what the playlist
effect stores into `segmentMapRef`.  Promise-valued operations
(`audio.play()`, `loadeddata` repositioning, the `tryPlay` readiness retry)
are modelled by their settled success path — except the synchronous
TypeError thrown when `handlePlaylistEnd` repositions with a `NaN` target,
which is modelled explicitly (see `loadSegmentAudioRaw`) — and the
`setTimeout` clearing the seek guard is folded into `seekTo` (the claims
speak about the settled state).  A `currentTime` assignment stores the
requested target; the element's readback clamps it (`observedPosition`).
-/

namespace MediaPlayer

/-- Shape of `segment.timingData` as produced by `extractRawTimingData`
(Settings.jsx): an object `{ reference, timestamps }`, or `null`. -/
structure TimingData where
  reference : String
  timestamps : List ℚ
  deriving Repr, DecidableEq, Inhabited

/-- Raw playlist entry (segment descriptor) as pushed by the calling UI
(`allPlaylistEntries.push({...})` in Settings.jsx): the fields the engine
interprets (`audioUrl`, `timingData`, `reference`) plus the passthrough
metadata fields it never reads — `sectionNum` (the ordinal index of the
section within the larger document), `audioFile`, `book`, `chapter`,
`testament`, `imageUrl` and `text`. -/
structure RawSegment where
  audioUrl : String
  timingData : Option TimingData
  reference : String
  sectionNum : Int
  audioFile : String
  book : String
  chapter : Int
  testament : String
  imageUrl : String
  text : String
  deriving Repr, DecidableEq, Inhabited

/-- Enriched segment of the segment map.  `buildSegmentMap` returns
`{ ...segment, index, startTimestamp, endTimestamp, duration, virtualStart,
virtualEnd }`: the spread keeps every descriptor field and the six listed
keys are written by the builder, which `extends` models exactly. -/
structure Segment extends RawSegment where
  index : Nat
  startTimestamp : ℚ
  endTimestamp : ℚ
  duration : ℚ
  virtualStart : ℚ
  virtualEnd : ℚ
  deriving Repr, DecidableEq, Inhabited

/-- Model of `timingData?.timestamps || []`: the timestamp list of a raw
segment, or `[]` when `timingData` is `null` (a present-but-empty array is
truthy in JavaScript, so `|| []` only replaces `undefined`). -/
def tsOf (s : RawSegment) : List ℚ :=
  match s.timingData with
  | some td => td.timestamps
  | none => []

/-- Model of the JavaScript expression `x || d` for an optionally-present
number `x`: both `undefined` and `0` are falsy and yield `d`. -/
def jsOr (x : Option ℚ) (d : ℚ) : ℚ :=
  match x with
  | some v => if v = 0 then d else v
  | none => d

/-- Duration computed by `buildSegmentMap`:
`timestamps[timestamps.length-1] - timestamps[0]` when at least two
timestamps exist, otherwise `0`. -/
def segDuration (s : RawSegment) : ℚ :=
  if 2 ≤ (tsOf s).length then (tsOf s).getLastD 0 - (tsOf s).headD 0 else 0

/-- The builder's `startTimestamp = timestamps[0] || 0`. -/
def segStartTimestamp (s : RawSegment) : ℚ :=
  jsOr (tsOf s).head? 0

/-- The builder's `endTimestamp = timestamps[timestamps.length - 1] ||
startTimestamp` (note the JavaScript quirk: a final timestamp equal to `0`
is falsy and falls back to `startTimestamp`). -/
def segEndTimestamp (s : RawSegment) : ℚ :=
  jsOr (tsOf s).getLast? (segStartTimestamp s)

/-- Recursive worker for `buildSegmentMap`: the `playlist.map` callback
carrying the running `index` and the `cumulativeTime` accumulator. -/
def buildSegmentMapAux : Nat → ℚ → List RawSegment → List Segment
  | _, _, [] => []
  | index, cumulativeTime, seg :: rest =>
    { toRawSegment := seg
      index := index
      startTimestamp := segStartTimestamp seg
      endTimestamp := segEndTimestamp seg
      duration := segDuration seg
      virtualStart := cumulativeTime
      virtualEnd := cumulativeTime + segDuration seg }
      :: buildSegmentMapAux (index + 1) (cumulativeTime + segDuration seg) rest

/-- Model of `buildSegmentMap(playlist)`: a single left-to-right pass
accumulating `cumulativeTime` from `0` (the `!playlist || !playlist.length`
guard returns `[]`, covered by the empty case). -/
def buildSegmentMap (playlist : List RawSegment) : List Segment :=
  buildSegmentMapAux 0 0 playlist

/-- Total virtual duration of a segment map as the source computes it:
`segmentMap[segmentMap.length - 1].virtualEnd`, `0` for an empty map. -/
def mapTotal (m : List Segment) : ℚ :=
  match m.getLast? with
  | some s => s.virtualEnd
  | none => 0

/-- Model of `calculateVirtualTime()`: for the segment map, the current
segment index and the audio element's `currentTime`, returns
`Math.max(0, currentSegment.virtualStart + (realTime - currentSegment.startTimestamp))`;
the guard `!segmentMap.length || currentIndex >= segmentMap.length` (and a
missing audio element) returns `0`. -/
def calculateVirtualTime (segmentMap : List Segment) (currentIndex : Nat)
    (audioCurrentTime : ℚ) : ℚ :=
  match segmentMap[currentIndex]? with
  | none => 0
  | some currentSegment =>
    max 0 (currentSegment.virtualStart + (audioCurrentTime - currentSegment.startTimestamp))

/-- Observable state of the single `Audio` element owned by the engine.
`currentTime` holds the playback position last requested through the
`currentTime` setter; the element's seek algorithm clamps what it actually
reports — see `observedPosition`. -/
structure AudioState where
  src : String
  currentTime : ℚ
  paused : Bool
  deriving Repr, DecidableEq, Inhabited

/-- Position the media element actually reports after a seek request: the
seek algorithm clamps a below-range target to the earliest possible
position, `0`.  (An above-range target is clamped to the media duration,
which this model does not track; no theorem relies on an above-range
readback.) -/
def observedPosition (a : AudioState) : ℚ :=
  max 0 a.currentTime

/-- The fresh `new Audio()` element created on mount. -/
def initialAudio : AudioState :=
  { src := "", currentTime := 0, paused := true }

/-- The React state object of `MediaPlayerProvider` (`useState` initial
value: everything zeroed, `playbackRate` 1.0). -/
structure PlayerState where
  currentPlaylist : Option (List RawSegment)
  queue : List (List RawSegment)
  isPlaying : Bool
  isPaused : Bool
  currentSegmentIndex : Nat
  currentTime : ℚ
  duration : ℚ
  virtualTime : ℚ
  totalDuration : ℚ
  isLoading : Bool
  error : Option String
  playbackRate : ℚ
  isMinimized : Bool
  deriving Repr, DecidableEq, Inhabited

/-- The initial `useState` value. -/
def initialState : PlayerState :=
  { currentPlaylist := none, queue := [], isPlaying := false, isPaused := false,
    currentSegmentIndex := 0, currentTime := 0, duration := 0, virtualTime := 0,
    totalDuration := 0, isLoading := false, error := none, playbackRate := 1,
    isMinimized := false }

/-- Whole-engine state: committed React state, the audio element, and the
mutable refs that are not pure mirrors of committed state (`isPlayingRef`,
`isSeekingRef`, `virtualTimeRef`).  The refs that the `useEffect` hooks keep
equal to committed state (`currentSegmentRef`, `queueRef`, `segmentMapRef`)
are read through `state` / `Engine.segmentMap`. -/
structure Engine where
  state : PlayerState
  audio : AudioState
  isPlayingRef : Bool
  isSeekingRef : Bool
  virtualTimeRef : ℚ
  deriving Repr, DecidableEq, Inhabited

/-- Engine state right after mount. -/
def initialEngine : Engine :=
  { state := initialState, audio := initialAudio, isPlayingRef := false,
    isSeekingRef := false, virtualTimeRef := 0 }

/-- The `segmentMapRef` contents: the playlist effect rebuilds the map from
`state.currentPlaylist` whenever it changes (and `loadPlaylist`'s replace
branch stores the same value directly); while the playlist is still `null`
the ref holds its initial `[]`, which `buildSegmentMap []` also gives. -/
def Engine.segmentMap (e : Engine) : List Segment :=
  buildSegmentMap (e.state.currentPlaylist.getD [])

/-- The dynamic first argument of `loadSegmentAudio(segmentOrIndex, ...)`
for the callers that pass a number (index into the segment map) or an
enriched segment object; `handlePlaylistEnd` additionally passes a raw
playlist entry, modelled separately by `loadSegmentAudioRaw` because that
entry carries no `startTimestamp` field. -/
inductive SegmentOrIndex where
  | byIndex (i : Int)
  | bySegment (seg : Segment)
  deriving Repr, DecidableEq

/-- Core of `loadSegmentAudio` once the segment is resolved:
`needsNewFile = audio.src !== segment.audioUrl` (URL resolution is modelled
as string identity); on a new file it sets `isLoading`, assigns `src`, calls
`load()` and the `loadeddata` handler then repositions to
`targetTime = segment.startTimestamp + seekOffset` (we model the settled
post-load state); on the same file it just repositions.  The `AudioState`
field records the requested target; the element's readback clamps it — see
`observedPosition`.  The returned `Bool` records whether `audio.load()` was
triggered. -/
def loadSegmentAudioCore (e : Engine) (audioUrl : String) (targetTime : ℚ) :
    Engine × Bool :=
  if e.audio.src ≠ audioUrl then
    ({ e with state := { e.state with isLoading := true },
              audio := { e.audio with src := audioUrl, currentTime := targetTime } }, true)
  else
    ({ e with audio := { e.audio with currentTime := targetTime } }, false)

/-- The raw-entry case of `loadSegmentAudio`, as invoked by
`handlePlaylistEnd` with `nextPlaylist[0]`: a raw playlist entry has no
`startTimestamp` field, so `targetTime = undefined + 0 = NaN`.  On a new
file the `NaN` reposition only happens later, inside the `loadeddata`
listener, where the thrown TypeError is swallowed by event dispatch and the
freshly loaded resource stays at position `0`.  On the same file the
assignment `audio.currentTime = NaN` throws synchronously (WebIDL `double`
rejects `NaN`), aborting the caller before anything else runs; the second
returned flag records a triggered `load()`, the third that throw. -/
def loadSegmentAudioRaw (e : Engine) (seg : RawSegment) : Engine × Bool × Bool :=
  if e.audio.src ≠ seg.audioUrl then
    ({ e with state := { e.state with isLoading := true },
              audio := { e.audio with src := seg.audioUrl, currentTime := 0 } },
     true, false)
  else
    (e, false, true)

/-- Model of `loadSegmentAudio(segmentOrIndex, seekOffset = 0)`: a numeric
argument is bounds-checked against the segment map (`return` on
out-of-range), otherwise the passed object is used directly. -/
def loadSegmentAudioE (e : Engine) (target : SegmentOrIndex) (seekOffset : ℚ) :
    Engine × Bool :=
  match target with
  | .byIndex i =>
    if i < 0 ∨ (e.segmentMap.length : Int) ≤ i then (e, false)
    else
      match e.segmentMap[i.toNat]? with
      | none => (e, false)
      | some segment =>
        loadSegmentAudioCore e segment.audioUrl (segment.startTimestamp + seekOffset)
  | .bySegment segment =>
    loadSegmentAudioCore e segment.audioUrl (segment.startTimestamp + seekOffset)

/-- Model of the public `play()` operation, fulfilled-promise path:
`isPlayingRef = true` and `{ isPlaying: true, isPaused: false, error: null }`. -/
def playOp (e : Engine) : Engine :=
  { e with audio := { e.audio with paused := false },
           isPlayingRef := true,
           state := { e.state with isPlaying := true, isPaused := false, error := none } }

/-- Model of `handlePlaylistEnd()`: clear the playing flags, then — if the
queue is non-empty — shift its first playlist (`queue[0]`, with
`queue.slice(1)` remaining), make it current at segment `0` and time `0`
(the playlist effect rebuilds the map and recomputes `totalDuration`), load
its first (raw) entry and `play()` it (fulfilled path sets
`isPlaying: true`).  When `loadSegmentAudioRaw` throws — the raw entry's
URL already being the loaded source — the TypeError aborts the function
before `audioRef.current.play()`, so playback does not start and the state
committed so far is what remains (the exception escapes through the event
handler without further effect).  The `Bool` records whether a resource
load was triggered. -/
def handlePlaylistEnd (e : Engine) : Engine × Bool :=
  let e := { e with state := { e.state with isPlaying := false, isPaused := false } }
  match e.state.queue with
  | [] => (e, false)
  | nextPlaylist :: remainingQueue =>
    let e := { e with state := { e.state with
      currentPlaylist := some nextPlaylist,
      queue := remainingQueue,
      currentSegmentIndex := 0,
      currentTime := 0,
      totalDuration := mapTotal (buildSegmentMap nextPlaylist) } }
    match nextPlaylist with
    | [] => (e, false)
    | firstEntry :: _ =>
      let r := loadSegmentAudioRaw e firstEntry
      if r.2.2 then (r.1, r.2.1)
      else
        ({ r.1 with audio := { r.1.audio with paused := false },
                    state := { r.1.state with isPlaying := true } }, r.2.1)

/-- Model of `handleSegmentEnd()`: with a next segment, pause, advance
`currentSegmentIndex`, load the next segment and — if `isPlayingRef` was
set — resume once ready (settled `tryPlay` success path); on the last
segment, pause and run `handlePlaylistEnd`.  The `Bool` records whether a
resource load was triggered. -/
def handleSegmentEnd (e : Engine) : Engine × Bool :=
  let wasPlaying := e.isPlayingRef
  if e.segmentMap.isEmpty then (e, false)
  else
    let nextIndex := e.state.currentSegmentIndex + 1
    if nextIndex < e.segmentMap.length then
      let e := { e with audio := { e.audio with paused := true } }
      let e := { e with state := { e.state with currentSegmentIndex := nextIndex } }
      let r := loadSegmentAudioE e (.byIndex nextIndex) 0
      (if wasPlaying then
        { r.1 with audio := { r.1.audio with paused := false } }
       else r.1, r.2)
    else
      handlePlaylistEnd { e with audio := { e.audio with paused := true } }

/-- The `position` option of `loadPlaylist`: a string or a number (the
source tests `position === "start"`, then `typeof position === "number"`,
and pushes to the end otherwise). -/
inductive PositionVal where
  | str (s : String)
  | num (n : Int)
  deriving Repr, DecidableEq

/-- Options object of `loadPlaylist`, with the source's defaults. -/
structure LoadOptions where
  mode : String := "replace"
  autoPlay : Bool := false
  clearQueue : Bool := false
  position : PositionVal := .str "end"
  deriving Repr, DecidableEq

/-- JavaScript `Array.prototype.splice(start, 0, x)` insertion: a negative
`start` counts from the end (clamped at `0`), a too-large one appends. -/
def spliceInsert (l : List (List RawSegment)) (pos : Int) (x : List RawSegment) :
    List (List RawSegment) :=
  let len : Int := l.length
  let start := if pos < 0 then max (len + pos) 0 else min pos len
  l.take start.toNat ++ x :: l.drop start.toNat

/-- Model of `loadPlaylist(playlistData, options)`.  An absent or empty
playlist only logs `"Empty playlist provided"` and returns.  In `"queue"`
mode the queue is rebuilt (`[playlistData]` when `clearQueue`, a copy of the
current queue otherwise) and the playlist is then unshifted / spliced /
pushed according to `position`.  In replace mode the audio is paused, the
map rebuilt, the state reset (keeping or clearing the queue), segment `0`
loaded and, on `autoPlay`, `play()` invoked (settled success path). -/
def loadPlaylist (e : Engine) (playlistData : Option (List RawSegment))
    (options : LoadOptions) : Engine :=
  match playlistData with
  | none => e
  | some playlist =>
    if playlist.isEmpty then e
    else if options.mode = "queue" then
      let newQueue := if options.clearQueue then [playlist] else e.state.queue
      let newQueue :=
        match options.position with
        | .str s => if s = "start" then playlist :: newQueue else newQueue ++ [playlist]
        | .num n => spliceInsert newQueue n playlist
      { e with state := { e.state with queue := newQueue } }
    else
      let e := { e with audio := { e.audio with paused := true } }
      let segmentMap := buildSegmentMap playlist
      let e := { e with state := { e.state with
        currentPlaylist := some playlist,
        currentSegmentIndex := 0,
        currentTime := 0,
        virtualTime := 0,
        totalDuration := mapTotal segmentMap,
        isPlaying := false,
        isPaused := false,
        error := none,
        queue := if options.clearQueue then [] else e.state.queue } }
      if 0 < segmentMap.length then
        let r := loadSegmentAudioE e (.byIndex 0) 0
        if options.autoPlay then playOp r.1 else r.1
      else e

/-- The linear scan of `seekTo`: first segment (with its running index)
whose `[virtualStart, virtualEnd]` contains the target. -/
def scanSeek (t : ℚ) : Nat → List Segment → Option (Nat × Segment)
  | _, [] => none
  | i, segment :: rest =>
    if segment.virtualStart ≤ t ∧ t ≤ segment.virtualEnd then some (i, segment)
    else scanSeek t (i + 1) rest

/-- Target resolution of `seekTo`: the scan result, or — when no segment
contains the target — the first segment for a negative target and the last
segment otherwise. -/
def resolveSeekTarget (segmentMap : List Segment) (t : ℚ) : Option (Nat × Segment) :=
  match scanSeek t 0 segmentMap with
  | some found => some found
  | none =>
    if t < 0 then segmentMap.head?.map (fun s => (0, s))
    else segmentMap.getLast?.map (fun s => (segmentMap.length - 1, s))

/-- Model of `seekTo(virtualTime)`, settled: resolve the target segment,
set the seek guard, then either (segment change) pause, commit the new
index and the raw target as `virtualTime`, load/reposition to
`startTimestamp + offsetInSegment` and resume if `isPlayingRef` was set, or
(same segment) reposition directly, commit `virtualTime` (also into
`virtualTimeRef`) and resume if needed; finally the 200 ms timeout clears
the guard.  Repositions store the requested target in `currentTime`; what
the element reports back is the clamped `observedPosition`. -/
def seekTo (e : Engine) (virtualTime : ℚ) : Engine :=
  if e.segmentMap.isEmpty then e
  else
    let wasPlaying := e.isPlayingRef
    match resolveSeekTarget e.segmentMap virtualTime with
    | none => e
    | some (targetIndex, targetSegment) =>
      let offsetInSegment := virtualTime - targetSegment.virtualStart
      let needsSegmentChange := targetIndex ≠ e.state.currentSegmentIndex
      let e := { e with isSeekingRef := true }
      let e :=
        if needsSegmentChange then
          let e := { e with audio := { e.audio with paused := true } }
          let e := { e with state := { e.state with
            currentSegmentIndex := targetIndex, virtualTime := virtualTime } }
          let r := loadSegmentAudioE e (.byIndex targetIndex) offsetInSegment
          if wasPlaying then { r.1 with audio := { r.1.audio with paused := false } }
          else r.1
        else
          let e := { e with audio := { e.audio with
            currentTime := targetSegment.startTimestamp + offsetInSegment } }
          let e := { e with state := { e.state with virtualTime := virtualTime },
                            virtualTimeRef := virtualTime }
          if wasPlaying ∧ e.audio.paused then
            { e with audio := { e.audio with paused := false } }
          else e
      { e with isSeekingRef := false }

/-- Model of `getCurrentSegment()`: `segmentMap[currentIndex]`, `null` when
the map is empty or the index is out of range. -/
def getCurrentSegmentE (e : Engine) : Option Segment :=
  e.segmentMap[e.state.currentSegmentIndex]?

/-- Character class `[A-Z0-9]` under the regex's `i` flag: ASCII letters of
either case and digits. -/
def isRefAlnum (c : Char) : Bool :=
  c.isAlpha || c.isDigit

/-- Maximal run of characters satisfying `p` and the remainder. -/
def takeRun (p : Char → Bool) (cs : List Char) : List Char × List Char :=
  (cs.takeWhile p, cs.dropWhile p)

/-- Model of `reference.match(/^([A-Z0-9]+)\s+(\d+):(.+)$/i)`: book, chapter
and verse-spec groups, or `null`.  Because the character classes at each
boundary are disjoint, greedy maximal-munch parsing is equivalent to the
backtracking regex; `.` does not match line terminators. -/
def matchReference (reference : String) : Option (String × String × String) :=
  let p1 := takeRun isRefAlnum reference.toList
  if p1.1.isEmpty then none
  else
    let p2 := takeRun Char.isWhitespace p1.2
    if p2.1.isEmpty then none
    else
      let p3 := takeRun Char.isDigit p2.2
      if p3.1.isEmpty then none
      else
        match p3.2 with
        | ':' :: rest =>
          if rest.isEmpty ∨ ¬ rest.all (fun c => c ≠ '\n' ∧ c ≠ '\r') then none
          else some (String.mk p1.1, String.mk p3.1, String.mk rest)
        | _ => none

/-- JavaScript `String.prototype.split(sep)` for a one-character separator,
on character lists: splitting never yields an empty result list. -/
def jsSplit (sep : Char) : List Char → List (List Char)
  | [] => [[]]
  | c :: rest =>
    match jsSplit sep rest with
    | [] => [[]]
    | cur :: done => if c = sep then [] :: cur :: done else (c :: cur) :: done

/-- JavaScript `String.prototype.trim()` on character lists. -/
def jsTrim (cs : List Char) : List Char :=
  ((cs.dropWhile Char.isWhitespace).reverse.dropWhile Char.isWhitespace).reverse

/-- Value of a non-empty all-digit character list, else `none`. -/
def digitsToNat (cs : List Char) : Option Nat :=
  if cs.isEmpty then none
  else if cs.all Char.isDigit then
    some (cs.foldl (fun a c => a * 10 + (c.toNat - 48)) 0)
  else none

/-- Model of JavaScript `Number(part.trim())` for the strings reachable
here (digit runs, possibly whitespace-padded; `Number("")` and
`Number(" ")` are `0`); `none` stands for `NaN`. -/
def jsNumber (cs : List Char) : Option Nat :=
  if (jsTrim cs).isEmpty then some 0 else digitsToNat (jsTrim cs)

/-- The inclusive loop `for (v = start; v <= end; v++) verses.push(v)`;
`NaN` bounds produce no iterations. -/
def rangeVerses (a b : Option Nat) : List Nat :=
  match a, b with
  | some s, some e => List.range' s (e + 1 - s)
  | _, _ => []

/-- Model of the verse-specification parsing of `getCurrentVerse`:
comma-separated parts each either a range or a single verse, else a plain
range, else a single verse (`Number` trims its argument, so pre-trimming a
range part before splitting is observationally the same here). -/
def parseVerseSpec (verseSpec : String) : List Nat :=
  let cs := verseSpec.toList
  if cs.contains ',' then
    ((jsSplit ',' cs).map (fun part =>
      if part.contains '-' then
        match jsSplit '-' (jsTrim part) with
        | a :: b :: _ => rangeVerses (jsNumber a) (jsNumber b)
        | _ => []
      else
        match jsNumber part with
        | some n => [n]
        | none => [])).flatten
  else if cs.contains '-' then
    match jsSplit '-' cs with
    | a :: b :: _ => rangeVerses (jsNumber a) (jsNumber b)
    | _ => []
  else
    match jsNumber cs with
    | some n => [n]
    | none => []

/-- The template literal `` `${book} ${chapter}:${verseText}` ``. -/
def verseLabel (book chapter verseText : String) : String :=
  book ++ " " ++ chapter ++ ":" ++ verseText

/-- Indexing `verses[i]` as interpolated by the template literal:
out-of-range gives the string `"undefined"`. -/
def jsVerseAt (verses : List Nat) (i : Nat) : String :=
  match verses[i]? with
  | some v => toString v
  | none => "undefined"

/-- The scanning loop of `getCurrentVerse`: for each verse index `i`,
`verseStart = timestamps[i]` and `verseEnd = timestamps[i+1] || Infinity`
(a `0` end is falsy and becomes `Infinity`); return on
`verseStart <= t < verseEnd`.  A missing `timestamps[i]` makes the `NaN`
comparison false and the loop continues. -/
def verseScan (book chapter : String) (timestamps : List ℚ) (t : ℚ) :
    Nat → List Nat → Option String
  | _, [] => none
  | i, v :: rest =>
    match timestamps[i]? with
    | none => verseScan book chapter timestamps t (i + 1) rest
    | some verseStart =>
      match timestamps[i + 1]? with
      | none =>
        if verseStart ≤ t then some (verseLabel book chapter (toString v))
        else verseScan book chapter timestamps t (i + 1) rest
      | some verseEnd =>
        if verseStart ≤ t ∧ (verseEnd = 0 ∨ t < verseEnd) then
          some (verseLabel book chapter (toString v))
        else verseScan book chapter timestamps t (i + 1) rest

/-- Model of `getCurrentVerse()` given `getCurrentSegment()` and the audio
element's real `currentTime`: `null` without a segment, timing data or a
parsable reference; otherwise the scan result, falling back to the first
verse for times before `timestamps[0]` and to the last verse after the end
(an absent `timestamps[0]` makes the `NaN` comparison false). -/
def getCurrentVerseFrom (segment? : Option Segment) (audioCurrentTime : ℚ) :
    Option String :=
  match segment? with
  | none => none
  | some segment =>
    match segment.timingData with
    | none => none
    | some td =>
      match matchReference segment.reference with
      | none => none
      | some (book, chapter, verseSpec) =>
        let verses := parseVerseSpec verseSpec
        match verseScan book chapter td.timestamps audioCurrentTime 0 verses with
        | some result => some result
        | none =>
          match td.timestamps.head? with
          | some t0 =>
            if audioCurrentTime < t0 then
              some (verseLabel book chapter (jsVerseAt verses 0))
            else some (verseLabel book chapter (jsVerseAt verses (verses.length - 1)))
          | none => some (verseLabel book chapter (jsVerseAt verses (verses.length - 1)))

/-- Model of `getCurrentVerse()` on the whole engine. -/
def getCurrentVerseE (e : Engine) : Option String :=
  getCurrentVerseFrom (getCurrentSegmentE e) e.audio.currentTime

/-! Concrete fixtures for the witness and counterexample theorems. -/

/-- Raw playlist entry with the given audio URL, reference and optional
timestamps; the passthrough metadata fields get fixed sample values. -/
def mkRaw (url ref : String) (ts : Option (List ℚ)) : RawSegment :=
  { audioUrl := url,
    timingData := ts.map (fun l => { reference := ref, timestamps := l }),
    reference := ref, sectionNum := 1, audioFile := "f.mp3", book := "JHN",
    chapter := 3, testament := "nt", imageUrl := "img.jpg", text := "sample" }

/-- Two-entry playlist sharing one audio file: entry one spans real time
`[0, 10]`, entry two `[5, 15]` of the same resource. -/
def pl2 : List RawSegment :=
  [mkRaw "a.mp3" "GEN 1:1" (some [0, 10]), mkRaw "a.mp3" "GEN 1:2" (some [5, 15])]

/-- One-entry playlist over `[0, 10]`. -/
def pl1 : List RawSegment :=
  [mkRaw "u1.mp3" "GEN 1:1" (some [0, 10])]

/-- One-entry playlist whose single timestamp gives a zero-width segment. -/
def plZ : List RawSegment :=
  [mkRaw "z.mp3" "GEN 2:1" (some [4])]

/-- Queued playlist used as `B` in the queue-consumption witnesses. -/
def plB : List RawSegment :=
  [mkRaw "b.mp3" "EXO 1:1" (some [0, 3])]

/-- Engine that has loaded `pl1` in replace mode (no autoplay). -/
def e1 : Engine :=
  loadPlaylist initialEngine (some pl1) {}

/-- Engine that has loaded `pl2` in replace mode (no autoplay). -/
def e2 : Engine :=
  loadPlaylist initialEngine (some pl2) {}

/-- Engine with `pl1` active and `plB` queued in `"queue"` mode. -/
def eQ : Engine :=
  loadPlaylist e1 (some plB) { mode := "queue" }

/-- Segment descriptor carrying the bare label `"JHN 3"` (no verse part)
with markers `[0, 2, 5, 9]`. -/
def rawJhn3Bare : RawSegment :=
  mkRaw "j.mp3" "JHN 3" (some [0, 2, 5, 9])

/-- Segment descriptor with the full reference `"JHN 3:1-3"` and markers
`[0, 2, 5, 9]`. -/
def rawJhn3 : RawSegment :=
  mkRaw "j.mp3" "JHN 3:1-3" (some [0, 2, 5, 9])

/-- Enriched first segment of `pl2` as built by `buildSegmentMap`. -/
def pl2seg0 : Segment :=
  { toRawSegment := mkRaw "a.mp3" "GEN 1:1" (some [0, 10]), index := 0,
    startTimestamp := 0, endTimestamp := 10, duration := 10,
    virtualStart := 0, virtualEnd := 10 }

/-- Enriched second segment of `pl2` as built by `buildSegmentMap`. -/
def pl2seg1 : Segment :=
  { toRawSegment := mkRaw "a.mp3" "GEN 1:2" (some [5, 15]), index := 1,
    startTimestamp := 5, endTimestamp := 15, duration := 10,
    virtualStart := 10, virtualEnd := 20 }

/-- Enriched (zero-width) segment of `plZ` as built by `buildSegmentMap`. -/
def plZseg : Segment :=
  { toRawSegment := mkRaw "z.mp3" "GEN 2:1" (some [4]), index := 0,
    startTimestamp := 4, endTimestamp := 4, duration := 0,
    virtualStart := 0, virtualEnd := 0 }

/-! Structural lemmas about the segment-map builder. -/

/-- The head of a partially built map starts at the accumulator value. -/
theorem buildSegmentMapAux_head_virtualStart (pl : List RawSegment) (idx : Nat)
    (cum : ℚ) : ∀ y ∈ (buildSegmentMapAux idx cum pl).head?, y.virtualStart = cum := by
  cases pl with
  | nil => simp [buildSegmentMapAux]
  | cons s rest => simp [buildSegmentMapAux]

/-- Adjacent segments of a partially built map share their boundary. -/
theorem buildSegmentMapAux_chain (pl : List RawSegment) :
    ∀ idx cum, List.Chain' (fun a b => a.virtualEnd = b.virtualStart)
      (buildSegmentMapAux idx cum pl) := by
  induction pl with
  | nil => intro idx cum; simp [buildSegmentMapAux]
  | cons s rest ih =>
    intro idx cum
    rw [buildSegmentMapAux]
    refine List.chain'_cons'.mpr ⟨?_, ih _ _⟩
    intro y hy
    have hvs := buildSegmentMapAux_head_virtualStart rest (idx + 1)
      (cum + segDuration s) y hy
    simp [hvs]

/-- Every segment of a partially built map satisfies
`virtualEnd = virtualStart + duration`, and has duration `0` when its
descriptor carries fewer than two timestamps. -/
theorem buildSegmentMapAux_mem (pl : List RawSegment) :
    ∀ idx cum s, s ∈ buildSegmentMapAux idx cum pl →
      s.virtualEnd = s.virtualStart + s.duration
      ∧ ((tsOf s.toRawSegment).length < 2 → s.duration = 0) := by
  induction pl with
  | nil => intro idx cum s h; simp [buildSegmentMapAux] at h
  | cons r rest ih =>
    intro idx cum s h
    rw [buildSegmentMapAux] at h
    rcases List.mem_cons.mp h with h | h
    · subst h
      refine ⟨rfl, fun hlt => ?_⟩
      have hle : ¬ 2 ≤ (tsOf r).length := by
        simpa using Nat.not_le.mpr hlt
      simp [segDuration, hle]
    · exact ih _ _ s h

/-- A partially built map is as long as its playlist. -/
theorem buildSegmentMapAux_length (pl : List RawSegment) :
    ∀ idx cum, (buildSegmentMapAux idx cum pl).length = pl.length := by
  induction pl with
  | nil => intro idx cum; rfl
  | cons r rest ih => intro idx cum; simp [buildSegmentMapAux, ih]

/-- A partially built map looked up at `i` yields the enrichment of the
playlist's `i`-th descriptor (in particular the raw fields are carried
over verbatim). -/
theorem buildSegmentMapAux_getElem (pl : List RawSegment) :
    ∀ (idx : Nat) (cum : ℚ) (i : Nat) (s : Segment),
      (buildSegmentMapAux idx cum pl)[i]? = some s →
      pl[i]? = some s.toRawSegment := by
  induction pl with
  | nil => intro idx cum i s h; simp [buildSegmentMapAux] at h
  | cons r rest ih =>
    intro idx cum i s h
    rw [buildSegmentMapAux] at h
    cases i with
    | zero =>
      simp only [List.getElem?_cons_zero, Option.some.injEq] at h
      subst h
      simp
    | succ j =>
      simp only [List.getElem?_cons_succ] at h ⊢
      exact ih _ _ j s h

/-- String disequality fact used to reduce the mode test on concrete
engines. -/
theorem replace_ne_queue : ("replace" = "queue") = False := by simp

/-- Sum of the durations the builder assigns to a playlist's entries. -/
def durSum (pl : List RawSegment) : ℚ :=
  (pl.map segDuration).sum

/-- A chain of `≤` starting at `a` ends no lower than `a`. -/
theorem le_getLastD_of_chain (l : List ℚ) :
    ∀ a, List.Chain (· ≤ ·) a l → a ≤ l.getLastD a := by
  induction l with
  | nil => intro a _; rfl
  | cons b t ih =>
    intro a h
    rcases List.chain_cons.mp h with ⟨hab, hbt⟩
    calc a ≤ b := hab
      _ ≤ t.getLastD b := ih b hbt
      _ = (b :: t).getLastD a := (List.getLastD_cons a b t).symm

/-- Ascending timestamps give a non-negative builder duration. -/
theorem segDuration_nonneg (r : RawSegment)
    (h : (tsOf r).Chain' (· ≤ ·)) : 0 ≤ segDuration r := by
  unfold segDuration
  cases hts : tsOf r with
  | nil => simp
  | cons a t =>
    rw [hts] at h
    have hc : List.Chain (· ≤ ·) a t := h
    have hle : a ≤ t.getLastD a := le_getLastD_of_chain t a hc
    by_cases h2 : 2 ≤ (a :: t).length
    · rw [if_pos h2, List.getLastD_cons, List.headD_cons]
      exact sub_nonneg.mpr hle
    · rw [if_neg h2]

/-- With non-negative durations, every segment of a partially built map
starts no earlier than the accumulator and ends no later than the
accumulator plus the playlist's total duration. -/
theorem buildSegmentMapAux_virtual_bounds (pl : List RawSegment) :
    ∀ (idx : Nat) (cum : ℚ), (∀ r ∈ pl, 0 ≤ segDuration r) →
      ∀ s ∈ buildSegmentMapAux idx cum pl,
        cum ≤ s.virtualStart ∧ s.virtualEnd ≤ cum + durSum pl := by
  induction pl with
  | nil => intro idx cum _ s h; simp [buildSegmentMapAux] at h
  | cons r rest ih =>
    intro idx cum hd s h
    have hdr : 0 ≤ segDuration r := hd r (List.mem_cons_self r rest)
    have hdrest : 0 ≤ durSum rest := by
      refine List.sum_nonneg ?_
      intro x hx
      rcases List.mem_map.mp hx with ⟨r2, hr2, rfl⟩
      exact hd r2 (List.mem_cons_of_mem r hr2)
    have hsum : durSum (r :: rest) = segDuration r + durSum rest := by
      simp [durSum]
    rw [buildSegmentMapAux] at h
    rcases List.mem_cons.mp h with h | h
    · subst h
      constructor
      · exact le_refl _
      · simp only [hsum]
        linarith
    · rcases ih (idx + 1) (cum + segDuration r) (fun r2 hr2 =>
        hd r2 (List.mem_cons_of_mem r hr2)) s h with ⟨h1, h2⟩
      constructor
      · linarith
      · rw [hsum]; linarith

/-- The last segment of a partially built non-empty map ends at the
accumulator plus the playlist's total duration. -/
theorem buildSegmentMapAux_getLast_virtualEnd (pl : List RawSegment) :
    ∀ (idx : Nat) (cum : ℚ) (s : Segment),
      (buildSegmentMapAux idx cum pl).getLast? = some s →
      s.virtualEnd = cum + durSum pl := by
  induction pl with
  | nil => intro idx cum s h; simp [buildSegmentMapAux] at h
  | cons r rest ih =>
    intro idx cum s h
    cases rest with
    | nil =>
      rw [buildSegmentMapAux, buildSegmentMapAux] at h
      simp only [List.getLast?_singleton, Option.some.injEq] at h
      subst h
      simp [durSum]
    | cons r2 rest2 =>
      rw [buildSegmentMapAux] at h
      rw [buildSegmentMapAux] at h
      rw [List.getLast?_cons_cons] at h
      have := ih (idx + 1) (cum + segDuration r) s (by rw [buildSegmentMapAux]; exact h)
      rw [this]
      simp [durSum]
      ring

/-- The code's `totalDuration` of a built map is the playlist's duration
sum. -/
theorem mapTotal_buildSegmentMap (pl : List RawSegment) :
    mapTotal (buildSegmentMap pl) = durSum pl := by
  cases pl with
  | nil => simp [mapTotal, buildSegmentMap, buildSegmentMapAux, durSum]
  | cons r rest =>
    have hne : buildSegmentMap (r :: rest) ≠ [] := by
      rw [buildSegmentMap, buildSegmentMapAux]; simp
    unfold mapTotal
    cases hl : (buildSegmentMap (r :: rest)).getLast? with
    | none => exact absurd (List.getLast?_eq_none_iff.mp hl) hne
    | some s =>
      have := buildSegmentMapAux_getLast_virtualEnd (r :: rest) 0 0 s hl
      simpa using this

/-- A successful seek scan returns an in-bounds index (relative to the scan
start) holding the returned segment, which contains the target. -/
theorem scanSeek_some (m : List Segment) :
    ∀ (t : ℚ) (i j : Nat) (s : Segment), scanSeek t i m = some (j, s) →
      ∃ k, k < m.length ∧ j = i + k ∧ m[k]? = some s
        ∧ s.virtualStart ≤ t ∧ t ≤ s.virtualEnd := by
  induction m with
  | nil => intro t i j s h; simp [scanSeek] at h
  | cons a rest ih =>
    intro t i j s h
    by_cases hc : a.virtualStart ≤ t ∧ t ≤ a.virtualEnd
    · rw [scanSeek, if_pos hc] at h
      obtain ⟨rfl, rfl⟩ : j = i ∧ s = a := by
        simpa [eq_comm] using h
      exact ⟨0, by simp, by simp, by simp, hc⟩
    · rw [scanSeek, if_neg hc] at h
      rcases ih t (i + 1) j s h with ⟨k, hk, hj, hget, hcont⟩
      exact ⟨k + 1, by simpa using hk, by omega, by simpa using hget, hcont⟩

/-- A negative target is below every segment of a map whose virtual starts
are non-negative, so the scan fails. -/
theorem scanSeek_none_of_neg (m : List Segment) :
    ∀ (t : ℚ) (i : Nat), (∀ s ∈ m, 0 ≤ s.virtualStart) → t < 0 →
      scanSeek t i m = none := by
  induction m with
  | nil => intro t i _ _; rfl
  | cons a rest ih =>
    intro t i hvs ht
    rw [scanSeek, if_neg]
    · exact ih t (i + 1) (fun s hs => hvs s (List.mem_cons_of_mem a hs)) ht
    · rintro ⟨h1, -⟩
      exact absurd (le_trans (hvs a (List.mem_cons_self a rest)) h1) (not_le.mpr ht)

/-- A target above every segment's virtual end makes the scan fail. -/
theorem scanSeek_none_of_gt (m : List Segment) :
    ∀ (t T : ℚ) (i : Nat), (∀ s ∈ m, s.virtualEnd ≤ T) → T < t →
      scanSeek t i m = none := by
  induction m with
  | nil => intro t T i _ _; rfl
  | cons a rest ih =>
    intro t T i hve ht
    rw [scanSeek, if_neg]
    · exact ih t T (i + 1) (fun s hs => hve s (List.mem_cons_of_mem a hs)) ht
    · rintro ⟨-, h2⟩
      exact absurd (le_trans h2 (hve a (List.mem_cons_self a rest))) (not_le.mpr ht)

/-- On a non-empty map, seek-target resolution always succeeds, at an
in-bounds index holding the returned segment. -/
theorem resolveSeekTarget_sound (m : List Segment) (t : ℚ) (hne : m ≠ []) :
    ∃ j s, resolveSeekTarget m t = some (j, s) ∧ j < m.length ∧ m[j]? = some s := by
  cases hscan : scanSeek t 0 m with
  | some p =>
    rcases p with ⟨j, s⟩
    rcases scanSeek_some m t 0 j s hscan with ⟨k, hk, hj, hget, -, -⟩
    exact ⟨j, s, by simp [resolveSeekTarget, hscan], by omega,
      by rw [hj]; simpa using hget⟩
  | none =>
    by_cases ht : t < 0
    · cases m with
      | nil => exact absurd rfl hne
      | cons a rest =>
        exact ⟨0, a, by simp [resolveSeekTarget, hscan, ht], by simp, by simp⟩
    · have hlen : 0 < m.length := List.length_pos.mpr hne
      have hl : m.length - 1 < m.length := by omega
      obtain ⟨g, hg⟩ : ∃ g, m[m.length - 1]? = some g :=
        ⟨m[m.length - 1], by simp⟩
      refine ⟨m.length - 1, g, ?_, hl, hg⟩
      have : m.getLast? = some g := by rw [List.getLast?_eq_getElem? m]; exact hg
      simp [resolveSeekTarget, hscan, ht, this]

/-- Shape of a settled `seekTo`: whatever branch is taken, the resolved
target index is committed, the raw (unclamped) target is stored as
`virtualTime`, and the audio element is repositioned to
`startTimestamp + (target - virtualStart)`; the playlist is untouched. -/
theorem seekTo_shape (e : Engine) (x : ℚ) (j : Nat) (s : Segment)
    (hres : resolveSeekTarget e.segmentMap x = some (j, s))
    (hj : e.segmentMap[j]? = some s) :
    (seekTo e x).state.virtualTime = x
  ∧ (seekTo e x).state.currentSegmentIndex = j
  ∧ (seekTo e x).audio.currentTime = s.startTimestamp + (x - s.virtualStart)
  ∧ (seekTo e x).state.currentPlaylist = e.state.currentPlaylist := by
  have hjlt : j < e.segmentMap.length := (List.getElem?_eq_some.mp hj).1
  have hemp : e.segmentMap.isEmpty = false := by
    cases hmap : e.segmentMap with
    | nil => rw [hmap] at hj; simp at hj
    | cons a t => rfl
  simp only [Engine.segmentMap] at hres hj hjlt hemp
  have h1 : ¬ ((j : Int) < 0) := by omega
  have h2 : ¬ (((buildSegmentMap (e.state.currentPlaylist.getD [])).length : Int)
      ≤ (j : Int)) := by omega
  have h3 : ((j : Int)).toNat = j := by omega
  by_cases hch : j = e.state.currentSegmentIndex
  · cases hpl : e.isPlayingRef <;> cases hpause : e.audio.paused <;>
      simp [seekTo, Engine.segmentMap, hemp, hres, hch, hpl, hpause,
        loadSegmentAudioE, loadSegmentAudioCore, h1, h2, h3, hj]
  · cases hpl : e.isPlayingRef <;> by_cases hsrc : e.audio.src = s.audioUrl <;>
      simp [seekTo, Engine.segmentMap, hemp, hres, hch, hpl, hsrc,
        loadSegmentAudioE, loadSegmentAudioCore, h1, h2, h3, hj]

/-- C1 (amended): on a non-empty map with ascending per-segment timestamps,
`seekTo(x)` clamps the segment choice — the committed segment index is
always in bounds, `0` for `x < 0` and the last index for
`x > totalDuration` — and the media element clamps the physical landing
position (for `x < 0` the observed position is
`max(0, startOffset + x)`, which is segment 0's earliest position — offset
`0` — whenever `startOffset + x ≤ 0`, as in the `seekTo(-5)` example); but
the *reported* `virtualTime` after settling is the raw target `x` itself,
so it lies in `[0, totalDuration]` exactly when `x` does, not always. -/
theorem c1_seek_clamps_segment_only (e : Engine) (x : ℚ)
    (hne : e.segmentMap ≠ [])
    (hasc : ∀ r ∈ e.state.currentPlaylist.getD [], (tsOf r).Chain' (· ≤ ·)) :
    (seekTo e x).state.virtualTime = x
  ∧ (seekTo e x).state.currentSegmentIndex < e.segmentMap.length
  ∧ (0 ≤ x → x ≤ mapTotal e.segmentMap →
      0 ≤ (seekTo e x).state.virtualTime
      ∧ (seekTo e x).state.virtualTime ≤ mapTotal e.segmentMap)
  ∧ (x < 0 → (seekTo e x).state.currentSegmentIndex = 0
      ∧ observedPosition (seekTo e x).audio
          = max 0 ((e.segmentMap.headD default).startTimestamp + x))
  ∧ (mapTotal e.segmentMap < x →
      (seekTo e x).state.currentSegmentIndex = e.segmentMap.length - 1) := by
  obtain ⟨j, s, hres, hjlt, hj⟩ := resolveSeekTarget_sound e.segmentMap x hne
  have hshape := seekTo_shape e x j s hres hj
  have hdur : ∀ r ∈ e.state.currentPlaylist.getD [], 0 ≤ segDuration r :=
    fun r hr => segDuration_nonneg r (hasc r hr)
  have hbounds := buildSegmentMapAux_virtual_bounds
    (e.state.currentPlaylist.getD []) 0 0 hdur
  have hsum : (0 : ℚ) ≤ durSum (e.state.currentPlaylist.getD []) := by
    refine List.sum_nonneg ?_
    intro y hy
    rcases List.mem_map.mp hy with ⟨r, hr, rfl⟩
    exact hdur r hr
  have htot : mapTotal e.segmentMap = durSum (e.state.currentPlaylist.getD []) :=
    mapTotal_buildSegmentMap _
  refine ⟨hshape.1, ?_, ?_, ?_, ?_⟩
  · rw [hshape.2.1]; exact hjlt
  · intro h0 hT
    rw [hshape.1]
    exact ⟨h0, hT⟩
  · intro hx
    have hvs : ∀ y ∈ e.segmentMap, 0 ≤ y.virtualStart := by
      intro y hy
      exact (hbounds y hy).1
    have hscan : scanSeek x 0 e.segmentMap = none :=
      scanSeek_none_of_neg e.segmentMap x 0 hvs hx
    cases hmap : e.segmentMap with
    | nil => exact absurd hmap hne
    | cons a rest =>
      have hres2 : resolveSeekTarget e.segmentMap x = some (0, a) := by
        rw [hmap] at hscan ⊢
        simp [resolveSeekTarget, hscan, hx]
      rw [hres2] at hres
      obtain ⟨hj0, hsa⟩ : j = 0 ∧ s = a := by
        have := Option.some.inj hres
        exact ⟨(Prod.mk.injEq _ _ _ _ ▸ this).1.symm, ((Prod.mk.injEq _ _ _ _ ▸ this).2).symm⟩
      have hvs0 : a.virtualStart = 0 := by
        refine buildSegmentMapAux_head_virtualStart
          (e.state.currentPlaylist.getD []) 0 0 a ?_
        show (buildSegmentMapAux 0 0 (e.state.currentPlaylist.getD [])).head? = some a
        show e.segmentMap.head? = some a
        rw [hmap]
        rfl
      refine ⟨by rw [hshape.2.1, hj0], ?_⟩
      unfold observedPosition
      rw [hshape.2.2.1, hsa, hvs0]
      simp only [List.headD_cons, sub_zero]
  · intro hgt
    have hve : ∀ y ∈ e.segmentMap, y.virtualEnd ≤ mapTotal e.segmentMap := by
      intro y hy
      have h2 := (hbounds y hy).2
      rw [htot]
      linarith
    have hscan : scanSeek x 0 e.segmentMap = none :=
      scanSeek_none_of_gt e.segmentMap x (mapTotal e.segmentMap) 0 hve hgt
    have hxnonneg : ¬ x < 0 := by
      rw [htot] at hgt
      linarith
    obtain ⟨g, hg⟩ : ∃ g, e.segmentMap.getLast? = some g := by
      cases hmap2 : e.segmentMap.getLast? with
      | none => exact absurd (List.getLast?_eq_none_iff.mp hmap2) hne
      | some g => exact ⟨g, rfl⟩
    have hres2 : resolveSeekTarget e.segmentMap x
        = some (e.segmentMap.length - 1, g) := by
      simp [resolveSeekTarget, hscan, hxnonneg, hg]
    rw [hres2] at hres
    have hj1 : e.segmentMap.length - 1 = j :=
      (Prod.mk.injEq _ _ _ _ ▸ Option.some.inj hres).1
    rw [hshape.2.1, ← hj1]

/-! Claim theorems. -/

/-- C8: calling `loadPlaylist` with a missing or empty playlist is a no-op —
apart from the logged warning, the engine (every player-state field, the
queue, the audio element and all refs) is returned unchanged. -/
theorem c8_empty_playlist_noop (e : Engine) (options : LoadOptions) :
    loadPlaylist e none options = e ∧ loadPlaylist e (some []) options = e :=
  ⟨rfl, rfl⟩

/-- C10: in `"queue"` mode `loadPlaylist` mutates only the queue — the
active playlist, segment index, real/virtual time, total duration, the
playing/paused/loading flags, rate, error, minimized flag, the audio element
(no pause, reload or reposition) and every ref are unchanged. -/
theorem c10_queue_mode_mutates_only_queue (e : Engine) (pl : List RawSegment)
    (options : LoadOptions) (hpl : pl ≠ []) (hmode : options.mode = "queue") :
    (loadPlaylist e (some pl) options).audio = e.audio
  ∧ (loadPlaylist e (some pl) options).isPlayingRef = e.isPlayingRef
  ∧ (loadPlaylist e (some pl) options).isSeekingRef = e.isSeekingRef
  ∧ (loadPlaylist e (some pl) options).virtualTimeRef = e.virtualTimeRef
  ∧ (loadPlaylist e (some pl) options).state.currentPlaylist = e.state.currentPlaylist
  ∧ (loadPlaylist e (some pl) options).state.isPlaying = e.state.isPlaying
  ∧ (loadPlaylist e (some pl) options).state.isPaused = e.state.isPaused
  ∧ (loadPlaylist e (some pl) options).state.currentSegmentIndex = e.state.currentSegmentIndex
  ∧ (loadPlaylist e (some pl) options).state.currentTime = e.state.currentTime
  ∧ (loadPlaylist e (some pl) options).state.duration = e.state.duration
  ∧ (loadPlaylist e (some pl) options).state.virtualTime = e.state.virtualTime
  ∧ (loadPlaylist e (some pl) options).state.totalDuration = e.state.totalDuration
  ∧ (loadPlaylist e (some pl) options).state.isLoading = e.state.isLoading
  ∧ (loadPlaylist e (some pl) options).state.error = e.state.error
  ∧ (loadPlaylist e (some pl) options).state.playbackRate = e.state.playbackRate
  ∧ (loadPlaylist e (some pl) options).state.isMinimized = e.state.isMinimized := by
  cases pl with
  | nil => exact absurd rfl hpl
  | cons a t => simp [loadPlaylist, hmode]

/-- C10 witness: queueing `plB` onto the engine that has `pl1` loaded. -/
theorem c10_queue_mode_mutates_only_queue_witness :
    (loadPlaylist e1 (some plB) { mode := "queue" }).audio = e1.audio
  ∧ (loadPlaylist e1 (some plB) { mode := "queue" }).isPlayingRef = e1.isPlayingRef
  ∧ (loadPlaylist e1 (some plB) { mode := "queue" }).isSeekingRef = e1.isSeekingRef
  ∧ (loadPlaylist e1 (some plB) { mode := "queue" }).virtualTimeRef = e1.virtualTimeRef
  ∧ (loadPlaylist e1 (some plB) { mode := "queue" }).state.currentPlaylist = e1.state.currentPlaylist
  ∧ (loadPlaylist e1 (some plB) { mode := "queue" }).state.isPlaying = e1.state.isPlaying
  ∧ (loadPlaylist e1 (some plB) { mode := "queue" }).state.isPaused = e1.state.isPaused
  ∧ (loadPlaylist e1 (some plB) { mode := "queue" }).state.currentSegmentIndex = e1.state.currentSegmentIndex
  ∧ (loadPlaylist e1 (some plB) { mode := "queue" }).state.currentTime = e1.state.currentTime
  ∧ (loadPlaylist e1 (some plB) { mode := "queue" }).state.duration = e1.state.duration
  ∧ (loadPlaylist e1 (some plB) { mode := "queue" }).state.virtualTime = e1.state.virtualTime
  ∧ (loadPlaylist e1 (some plB) { mode := "queue" }).state.totalDuration = e1.state.totalDuration
  ∧ (loadPlaylist e1 (some plB) { mode := "queue" }).state.isLoading = e1.state.isLoading
  ∧ (loadPlaylist e1 (some plB) { mode := "queue" }).state.error = e1.state.error
  ∧ (loadPlaylist e1 (some plB) { mode := "queue" }).state.playbackRate = e1.state.playbackRate
  ∧ (loadPlaylist e1 (some plB) { mode := "queue" }).state.isMinimized = e1.state.isMinimized :=
  c10_queue_mode_mutates_only_queue e1 plB { mode := "queue" } (by simp [plB]) rfl

/-- C3: for every input playlist, the built segment map is contiguous and
non-overlapping on the virtual axis — adjacent segments satisfy
`segment[i].virtualEnd = segment[i+1].virtualStart` (stated as a chain over
the list), every segment satisfies `virtualEnd = virtualStart + duration`,
and a segment whose descriptor has fewer than two marker timestamps has
duration `0`. -/
theorem c3_segment_map_contiguous (pl : List RawSegment) :
    List.Chain' (fun a b => a.virtualEnd = b.virtualStart) (buildSegmentMap pl)
  ∧ (∀ s ∈ buildSegmentMap pl, s.virtualEnd = s.virtualStart + s.duration)
  ∧ (∀ s ∈ buildSegmentMap pl, (tsOf s.toRawSegment).length < 2 → s.duration = 0) :=
  ⟨buildSegmentMapAux_chain pl 0 0,
   fun s hs => (buildSegmentMapAux_mem pl 0 0 s hs).1,
   fun s hs => (buildSegmentMapAux_mem pl 0 0 s hs).2⟩

/-- C3 witness: the zero-width segment built from the single-timestamp
playlist `plZ` satisfies both membership-guarded conjuncts. -/
theorem c3_segment_map_contiguous_witness :
    plZseg.virtualEnd = plZseg.virtualStart + plZseg.duration
  ∧ plZseg.duration = 0 := by
  have hmem : plZseg ∈ buildSegmentMap plZ := by
    norm_num [buildSegmentMap, buildSegmentMapAux, segDuration, segStartTimestamp,
      segEndTimestamp, tsOf, jsOr, plZ, mkRaw, plZseg]
  exact ⟨(c3_segment_map_contiguous plZ).2.1 plZseg hmem,
    (c3_segment_map_contiguous plZ).2.2 plZseg hmem
      (by norm_num [plZseg, tsOf, mkRaw])⟩

/-- C9: every passthrough metadata field of a descriptor (`sectionNum` — the
ordinal index within the larger document —, `audioFile`, `book`, `chapter`,
`testament`, `imageUrl`, `text`, and also the interpreted `audioUrl`,
`timingData` and `reference`) is present unchanged on the corresponding
enriched segment: the enriched segment's embedded raw descriptor is the
input descriptor itself. -/
theorem c9_passthrough_preserved (pl : List RawSegment) (i : Nat) (s : Segment)
    (h : (buildSegmentMap pl)[i]? = some s) : pl[i]? = some s.toRawSegment :=
  buildSegmentMapAux_getElem pl 0 0 i s h

/-- C9 witness: the first enriched segment of `pl2` embeds the first
descriptor of `pl2` unchanged. -/
theorem c9_passthrough_preserved_witness :
    pl2[0]? = some pl2seg0.toRawSegment :=
  c9_passthrough_preserved pl2 0 pl2seg0 (by
    norm_num [buildSegmentMap, buildSegmentMapAux, segDuration, segStartTimestamp,
      segEndTimestamp, tsOf, jsOr, pl2, mkRaw, pl2seg0])

/-- C2 (amended): the virtual time computed on a time update equals
`max(0, s.virtualStart + (r - s.startOffset))` — the clamp is applied to the
whole expression, not to the offset — so it is never negative, and for
`r ≤ s.startOffset` it equals `max(0, s.virtualStart - (s.startOffset - r))`
(not `s.virtualStart`, which the original claim asserted). -/
theorem c2_virtual_clock_clamped (m : List Segment) (i : Nat) (r : ℚ)
    (s : Segment) (h : m[i]? = some s) :
    calculateVirtualTime m i r = max 0 (s.virtualStart + (r - s.startTimestamp))
  ∧ 0 ≤ calculateVirtualTime m i r
  ∧ (r ≤ s.startTimestamp →
      calculateVirtualTime m i r = max 0 (s.virtualStart - (s.startTimestamp - r))) := by
  unfold calculateVirtualTime
  rw [h]
  exact ⟨rfl, le_max_left _ _, fun _ => by ring_nf⟩

/-- C2 witness: the second segment of `pl2` at real time `2`. -/
theorem c2_virtual_clock_clamped_witness :
    calculateVirtualTime (buildSegmentMap pl2) 1 2
      = max 0 (pl2seg1.virtualStart + (2 - pl2seg1.startTimestamp))
  ∧ 0 ≤ calculateVirtualTime (buildSegmentMap pl2) 1 2
  ∧ calculateVirtualTime (buildSegmentMap pl2) 1 2
      = max 0 (pl2seg1.virtualStart - (pl2seg1.startTimestamp - 2)) := by
  have h := c2_virtual_clock_clamped (buildSegmentMap pl2) 1 2 pl2seg1 (by
    norm_num [buildSegmentMap, buildSegmentMapAux, segDuration, segStartTimestamp,
      segEndTimestamp, tsOf, jsOr, pl2, mkRaw, pl2seg1])
  exact ⟨h.1, h.2.1, h.2.2 (by norm_num [pl2seg1])⟩

/-- C2 counterexample: with the active segment `pl2seg1`
(`virtualStart = 10`, `startOffset = 5`) at real time `2`, the code computes
`max(0, 10 + (2 - 5)) = 7`, while the claimed formula
`virtualStart + max(0, r - startOffset)` gives `10`. -/
theorem c2_counterexample :
    (buildSegmentMap pl2)[1]? = some pl2seg1
  ∧ calculateVirtualTime (buildSegmentMap pl2) 1 2 = 7
  ∧ pl2seg1.virtualStart + max 0 ((2 : ℚ) - pl2seg1.startTimestamp) = 10
  ∧ (7 : ℚ) ≠ 10 := by
  refine ⟨?_, ?_, ?_, by norm_num⟩ <;>
    norm_num [calculateVirtualTime, buildSegmentMap, buildSegmentMapAux, segDuration,
      segStartTimestamp, segEndTimestamp, tsOf, jsOr, pl2, mkRaw, pl2seg1]

/-- C4 (code evaluation at the failing input): queueing a playlist with
`clearQueue: true` puts it into the queue twice — the source first builds
`newQueue = [playlistData]` and then pushes `playlistData` again — while the
claim (and the spec) require the entries to appear exactly once. -/
theorem c4_clear_queue_inserts_twice :
    (loadPlaylist initialEngine (some plB)
        { mode := "queue", clearQueue := true }).state.queue = [plB, plB] := by
  simp [loadPlaylist, initialEngine, initialState, plB]

/-- C5: advancing across a segment boundary where the next segment shares
the current segment's media URL — with the resource loaded on that URL —
triggers no reload (`audio.load()` is not called, `src` is untouched,
`isLoading` is untouched); only the playback position changes, to the next
segment's start offset. -/
theorem c5_no_redundant_reload (e : Engine) (cur next : Segment)
    (hnext : e.segmentMap[e.state.currentSegmentIndex + 1]? = some next)
    (hurl : next.audioUrl = cur.audioUrl)
    (hsrc : e.audio.src = cur.audioUrl) :
    (handleSegmentEnd e).2 = false
  ∧ (handleSegmentEnd e).1.audio.src = e.audio.src
  ∧ (handleSegmentEnd e).1.audio.currentTime = next.startTimestamp
  ∧ (handleSegmentEnd e).1.state.isLoading = e.state.isLoading
  ∧ (handleSegmentEnd e).1.state.currentSegmentIndex
      = e.state.currentSegmentIndex + 1 := by
  have hlt : e.state.currentSegmentIndex + 1 < e.segmentMap.length :=
    (List.getElem?_eq_some.mp hnext).1
  have hemp : e.segmentMap.isEmpty = false := by
    cases hmap : e.segmentMap with
    | nil => rw [hmap] at hnext; simp at hnext
    | cons a t => rfl
  simp only [Engine.segmentMap] at hnext hlt hemp
  have hsrceq : e.audio.src = next.audioUrl := by rw [hsrc, hurl]
  have h1 : ¬ ((e.state.currentSegmentIndex : Int) + 1 < 0) := by omega
  have h2 : ¬ (((buildSegmentMap (e.state.currentPlaylist.getD [])).length : Int)
      ≤ (e.state.currentSegmentIndex : Int) + 1) := by omega
  have h3 : ((e.state.currentSegmentIndex : Int) + 1).toNat
      = e.state.currentSegmentIndex + 1 := by omega
  cases hplay : e.isPlayingRef <;>
    simp [handleSegmentEnd, Engine.segmentMap, hemp, hplay, hlt, loadSegmentAudioE,
      loadSegmentAudioCore, h1, h2, h3, hnext, hsrceq]

/-- C5 witness: the engine loaded with `pl2` (both entries on `a.mp3`)
advancing from segment `0` to segment `1`. -/
theorem c5_no_redundant_reload_witness :
    (handleSegmentEnd e2).2 = false
  ∧ (handleSegmentEnd e2).1.audio.src = e2.audio.src
  ∧ (handleSegmentEnd e2).1.audio.currentTime = pl2seg1.startTimestamp
  ∧ (handleSegmentEnd e2).1.state.isLoading = e2.state.isLoading
  ∧ (handleSegmentEnd e2).1.state.currentSegmentIndex
      = e2.state.currentSegmentIndex + 1 :=
  c5_no_redundant_reload e2 pl2seg0 pl2seg1
    (by simp [e2, loadPlaylist, initialEngine, initialState, initialAudio, pl2, mkRaw,
      buildSegmentMap, buildSegmentMapAux, segDuration, segStartTimestamp,
      segEndTimestamp, tsOf, jsOr, mapTotal, loadSegmentAudioE, loadSegmentAudioCore,
      Engine.segmentMap, playOp, replace_ne_queue, pl2seg1]; norm_num)
    (by simp [pl2seg0, pl2seg1, mkRaw])
    (by simp [e2, loadPlaylist, initialEngine, initialState, initialAudio, pl2, mkRaw,
      buildSegmentMap, buildSegmentMapAux, segDuration, segStartTimestamp,
      segEndTimestamp, tsOf, jsOr, mapTotal, loadSegmentAudioE, loadSegmentAudioCore,
      Engine.segmentMap, playOp, replace_ne_queue, pl2seg0])

/-- C6 (amended): when the last segment ends with a non-empty queue,
`handleSegmentEnd` routes into `handlePlaylistEnd`, which shifts the first
pending playlist off the queue (FIFO, since default-position enqueues
append), makes it the current playlist at segment index `0` and time `0`,
and — provided its first entry's media URL differs from the currently
loaded source — loads it into the audio element and starts playback
(`isPlaying` becomes true, the element is unpaused).  When the URLs
coincide, the `NaN` reposition throws before `play()` and playback does not
start — see the counterexample. -/
theorem c6_playlist_end_consumes_queue (e : Engine) (b0 : RawSegment)
    (B : List RawSegment) (rest : List (List RawSegment))
    (hq : e.state.queue = B :: rest)
    (hB : B.head? = some b0)
    (hsrc : e.audio.src ≠ b0.audioUrl)
    (hemp : e.segmentMap.isEmpty = false)
    (hlast : e.segmentMap.length ≤ e.state.currentSegmentIndex + 1) :
    (handleSegmentEnd e).1.state.currentPlaylist = some B
  ∧ (handleSegmentEnd e).1.state.queue = rest
  ∧ (handleSegmentEnd e).1.state.currentSegmentIndex = 0
  ∧ (handleSegmentEnd e).1.state.currentTime = 0
  ∧ (handleSegmentEnd e).1.state.isPlaying = true
  ∧ (handleSegmentEnd e).1.audio.src = b0.audioUrl
  ∧ (handleSegmentEnd e).1.audio.paused = false
  ∧ (∀ (f : Engine) (pl : List RawSegment), pl ≠ [] →
      (loadPlaylist f (some pl) { mode := "queue" }).state.queue
        = f.state.queue ++ [pl]) := by
  have happend : ∀ (f : Engine) (pl : List RawSegment), pl ≠ [] →
      (loadPlaylist f (some pl) { mode := "queue" }).state.queue
        = f.state.queue ++ [pl] := by
    intro f pl hpl
    cases pl with
    | nil => exact absurd rfl hpl
    | cons a t => simp [loadPlaylist]
  have hnlt : ¬ e.state.currentSegmentIndex + 1 < e.segmentMap.length := by omega
  have hmain : (handleSegmentEnd e).1.state.currentPlaylist = some B
      ∧ (handleSegmentEnd e).1.state.queue = rest
      ∧ (handleSegmentEnd e).1.state.currentSegmentIndex = 0
      ∧ (handleSegmentEnd e).1.state.currentTime = 0
      ∧ (handleSegmentEnd e).1.state.isPlaying = true
      ∧ (handleSegmentEnd e).1.audio.src = b0.audioUrl
      ∧ (handleSegmentEnd e).1.audio.paused = false := by
    cases B with
    | nil => simp at hB
    | cons b t =>
      have hb : b = b0 := by simpa using hB
      subst hb
      simp [handleSegmentEnd, hemp, hnlt, handlePlaylistEnd, hq,
        loadSegmentAudioRaw, hsrc]
  exact ⟨hmain.1, hmain.2.1, hmain.2.2.1, hmain.2.2.2.1, hmain.2.2.2.2.1,
    hmain.2.2.2.2.2.1, hmain.2.2.2.2.2.2, happend⟩

/-- C6 witness: `pl1` active on its last segment with `plB` queued. -/
theorem c6_playlist_end_consumes_queue_witness :
    (handleSegmentEnd eQ).1.state.currentPlaylist = some plB
  ∧ (handleSegmentEnd eQ).1.state.queue = []
  ∧ (handleSegmentEnd eQ).1.state.currentSegmentIndex = 0
  ∧ (handleSegmentEnd eQ).1.state.currentTime = 0
  ∧ (handleSegmentEnd eQ).1.state.isPlaying = true
  ∧ (handleSegmentEnd eQ).1.audio.src = (mkRaw "b.mp3" "EXO 1:1" (some [0, 3])).audioUrl
  ∧ (handleSegmentEnd eQ).1.audio.paused = false
  ∧ (∀ (f : Engine) (pl : List RawSegment), pl ≠ [] →
      (loadPlaylist f (some pl) { mode := "queue" }).state.queue
        = f.state.queue ++ [pl]) :=
  c6_playlist_end_consumes_queue eQ (mkRaw "b.mp3" "EXO 1:1" (some [0, 3])) plB []
    (by simp [eQ, e1, loadPlaylist, initialEngine, initialState, initialAudio, pl1, plB,
      mkRaw, buildSegmentMap, buildSegmentMapAux, segDuration, segStartTimestamp,
      segEndTimestamp, tsOf, jsOr, mapTotal, loadSegmentAudioE, loadSegmentAudioCore,
      Engine.segmentMap, playOp, replace_ne_queue])
    (by simp [plB])
    (by simp [eQ, e1, loadPlaylist, initialEngine, initialState, initialAudio, pl1, plB,
      mkRaw, buildSegmentMap, buildSegmentMapAux, segDuration, segStartTimestamp,
      segEndTimestamp, tsOf, jsOr, mapTotal, loadSegmentAudioE, loadSegmentAudioCore,
      Engine.segmentMap, playOp, replace_ne_queue])
    (by simp [eQ, e1, loadPlaylist, initialEngine, initialState, initialAudio, pl1, plB,
      mkRaw, buildSegmentMap, buildSegmentMapAux, segDuration, segStartTimestamp,
      segEndTimestamp, tsOf, jsOr, mapTotal, loadSegmentAudioE, loadSegmentAudioCore,
      Engine.segmentMap, playOp, replace_ne_queue])
    (by simp [eQ, e1, loadPlaylist, initialEngine, initialState, initialAudio, pl1, plB,
      mkRaw, buildSegmentMap, buildSegmentMapAux, segDuration, segStartTimestamp,
      segEndTimestamp, tsOf, jsOr, mapTotal, loadSegmentAudioE, loadSegmentAudioCore,
      Engine.segmentMap, playOp, replace_ne_queue])

/-- One-entry playlist whose audio URL coincides with `pl1`'s (and hence
with the loaded source of `e1`). -/
def plSame : List RawSegment :=
  [mkRaw "u1.mp3" "EXO 1:1" (some [0, 3])]

/-- Engine with `pl1` active (source `u1.mp3` loaded) and `plSame` — whose
first entry is also backed by `u1.mp3` — queued in `"queue"` mode. -/
def eQSame : Engine :=
  loadPlaylist e1 (some plSame) { mode := "queue" }

/-- C6 counterexample: with the queued playlist's first entry backed by the
URL already loaded (`u1.mp3`), finishing the last segment consumes the
queue and swaps the playlist in, but `loadSegmentAudio`'s same-file branch
assigns `currentTime = NaN` (the raw entry has no `startTimestamp`), which
throws before `play()` — so `isPlaying` stays `false` and the element stays
paused: playback does not start automatically, contrary to the claim. -/
theorem c6_counterexample :
    eQSame.state.queue = [plSame]
  ∧ (handleSegmentEnd eQSame).1.state.currentPlaylist = some plSame
  ∧ (handleSegmentEnd eQSame).1.state.queue = []
  ∧ (handleSegmentEnd eQSame).1.state.isPlaying = false
  ∧ (handleSegmentEnd eQSame).1.audio.paused = true := by
  refine ⟨?_, ?_, ?_, ?_, ?_⟩ <;>
    simp [eQSame, e1, loadPlaylist, initialEngine, initialState, initialAudio, pl1,
      plSame, mkRaw, buildSegmentMap, buildSegmentMapAux, segDuration,
      segStartTimestamp, segEndTimestamp, tsOf, jsOr, mapTotal, loadSegmentAudioE,
      loadSegmentAudioCore, loadSegmentAudioRaw, Engine.segmentMap, playOp,
      replace_ne_queue, handleSegmentEnd, handlePlaylistEnd]

/-- C1 witness: seeking to `-5` on the engine with `pl1` loaded stores
`-5` as the reported virtual time and clamps the segment index to `0`. -/
theorem c1_seek_clamps_segment_only_witness :
    (seekTo e1 (-5)).state.virtualTime = -5
  ∧ (seekTo e1 (-5)).state.currentSegmentIndex = 0 := by
  have h := c1_seek_clamps_segment_only e1 (-5)
    (by simp [e1, loadPlaylist, initialEngine, initialState, initialAudio, pl1, mkRaw,
      buildSegmentMap, buildSegmentMapAux, segDuration, segStartTimestamp,
      segEndTimestamp, tsOf, jsOr, mapTotal, loadSegmentAudioE, loadSegmentAudioCore,
      Engine.segmentMap, playOp, replace_ne_queue])
    (by
      simp [e1, loadPlaylist, initialEngine, initialState, initialAudio, pl1, mkRaw,
        buildSegmentMap, buildSegmentMapAux, segDuration, segStartTimestamp,
        segEndTimestamp, tsOf, jsOr, mapTotal, loadSegmentAudioE, loadSegmentAudioCore,
        Engine.segmentMap, playOp, replace_ne_queue, List.chain'_cons,
        List.chain'_singleton])
  exact ⟨h.1, (h.2.2.2.1 (by norm_num)).1⟩

/-- C1 counterexample: on the engine with `pl1` loaded (one segment spanning
`[0, 10]`, so `totalDuration = 10`), `seekTo(-5)` does land on segment `0`
at observed in-segment offset `0` — the element clamps the below-range
target to its earliest position, as the claim's example says — but the
*reported* `virtualTime` after settling is `-5 ∉ [0, totalDuration]`,
refuting the claim's range guarantee. -/
theorem c1_counterexample :
    (seekTo e1 (-5)).state.virtualTime = -5
  ∧ ¬ (0 ≤ (seekTo e1 (-5)).state.virtualTime)
  ∧ (seekTo e1 (-5)).state.currentSegmentIndex = 0
  ∧ observedPosition (seekTo e1 (-5)).audio = 0 := by
  simp [e1, seekTo, resolveSeekTarget, scanSeek, loadPlaylist, initialEngine,
    initialState, initialAudio, pl1, mkRaw, buildSegmentMap, buildSegmentMapAux,
    segDuration, segStartTimestamp, segEndTimestamp, tsOf, jsOr, mapTotal,
    loadSegmentAudioE, loadSegmentAudioCore, Engine.segmentMap, playOp,
    replace_ne_queue, observedPosition]
  norm_num

/-- C7 counterexample: with the active segment labelled `"JHN 3"` (as the
claim specifies) and markers `[0, 2, 5, 9]`, the resolver returns `null` at
real times `3.4`, `-1` and `100` alike, because the reference does not match
the required `BOOK CHAPTER:VERSES` pattern — it does not return any
sub-unit. -/
theorem c7_counterexample :
    getCurrentVerseFrom ((buildSegmentMap [rawJhn3Bare]).head?) (17 / 5) = none
  ∧ getCurrentVerseFrom ((buildSegmentMap [rawJhn3Bare]).head?) (-1) = none
  ∧ getCurrentVerseFrom ((buildSegmentMap [rawJhn3Bare]).head?) 100 = none := by
  refine ⟨?_, ?_, ?_⟩ <;> rfl

/-- C7 (amended): with the active segment's reference carrying the verse
part — `"JHN 3:1-3"` — and markers `[0, 2, 5, 9]`, the resolver at real
time `3.4` returns the second sub-unit (`"JHN 3:2"`), at `-1` the first
(`"JHN 3:1"`), and at `100` the last (`"JHN 3:3"`): out-of-range times clamp
to the first/last sub-unit instead of erroring. -/
theorem c7_marker_resolution :
    getCurrentVerseFrom ((buildSegmentMap [rawJhn3]).head?) (17 / 5) = some "JHN 3:2"
  ∧ getCurrentVerseFrom ((buildSegmentMap [rawJhn3]).head?) (-1) = some "JHN 3:1"
  ∧ getCurrentVerseFrom ((buildSegmentMap [rawJhn3]).head?) 100 = some "JHN 3:3" := by
  have hm : matchReference "JHN 3:1-3" = some ("JHN", "3", "1-3") := by decide
  have hv : parseVerseSpec "1-3" = [1, 2, 3] := by decide
  refine ⟨?_, ?_, ?_⟩ <;>
    simp [getCurrentVerseFrom, buildSegmentMap, buildSegmentMapAux, rawJhn3, mkRaw,
      tsOf, jsOr, segDuration, segStartTimestamp, segEndTimestamp, hm, hv,
      verseScan, jsVerseAt] <;>
    norm_num <;> decide

end MediaPlayer
